import Mathlib

/-!
Shallow embedding of the Steam-Games-Recommendations core (`src/compute.py`):
the vertex classes `_Vertex` and `_GameVertex`, the `Graph` vertex store, and
the similarity-scoring and recommendation algorithms, together with proofs of
the specified properties.
-/

namespace Steam

/-- Keys of the vertex dictionary of `Graph`: the pair (item name, kind) that
`compute.py` uses as the key of `_vertices` and also stores as the `item`
attribute of the vertex placed under that key. -/
abbrev Key := String × String

/-- Model of the classes `_Vertex` and `_GameVertex` of `compute.py`. A game
vertex (kind = "game") carries `price`, `rating_score` and `platform`; a plain
`_Vertex` lacks those attributes and the code never reads them on non-game
vertices, so the model keeps inert zero defaults there. Neighbour objects are
identified with their keys: in any graph built by the code the vertex object
stored under a key is the unique object whose `item` equals that key, so the
mutual object references of the Python code become a `Finset` of neighbour
keys, and the `kind` attribute of a neighbour stored under key (name, k) is k. -/
structure Vertex where
  item : Key
  kind : String
  price : ℚ
  rating_score : ℚ
  platform : List String
  neighbours : Finset Key
deriving DecidableEq

/-- Python `_Vertex.degree`: the number of neighbours. -/
def Vertex.degree (v : Vertex) : ℕ :=
  v.neighbours.card

/-- Set comprehension used by `_GameVertex.similarity_score`: the items of the
neighbours of `v` whose kind lies in `kinds` (a neighbour stored under key
(name, k) has kind k). -/
def Vertex.filteredNb (v : Vertex) (kinds : List String) : Finset Key :=
  v.neighbours.filter (fun n => n.2 ∈ kinds)

/-- Python `_GameVertex.similarity_score(self, other, kinds)`. The code returns
0.0 when either vertex has degree 0; otherwise it seeds `union` with the
filtered neighbour items of `other` and loops over the neighbours of `self`,
adding each filtered item to `union` and, when the same vertex is also a
neighbour of `other`, to `intersect`; it returns 0.0 when `union` is empty and
`len(intersect) / len(union)` otherwise. -/
def Vertex.similarity_score (v other : Vertex) (kinds : List String) : ℚ :=
  if v.degree = 0 ∨ other.degree = 0 then 0
  else if (other.filteredNb kinds ∪ v.filteredNb kinds).card = 0 then 0
  else ((v.filteredNb kinds ∩ other.neighbours).card : ℚ) /
    ((other.filteredNb kinds ∪ v.filteredNb kinds).card : ℚ)

/-- Model of `Graph` from `compute.py`: the dictionary `_vertices` is split
into its key set and the stored vertex at each key; the value of `val` at a
key outside `keys` is an irrelevant default never exposed by the operations
under the well-formedness invariant `Graph.WF`. Iteration order of the Python
dictionary is immaterial to every operation modelled here (each one builds a
set or sorts explicitly). -/
structure Graph where
  keys : Finset Key
  val : Key → Vertex

/-- Python `Graph.__init__`: the empty graph. -/
def Graph.emptyGraph : Graph :=
  ⟨∅, fun k => ⟨k, k.2, 0, 0, [], ∅⟩⟩

/-- Python `Graph.add_vertex`: stores a fresh vertex under (item, kind) when
the key is absent and does nothing otherwise; kind "game" receives the price,
rating score and platform arguments (always supplied by the ingestion code in
`read.py`), any other kind receives a plain `_Vertex` without them. -/
def Graph.add_vertex (g : Graph) (item kind : String) (price rating_score : ℚ)
    (platform : List String) : Graph :=
  if (item, kind) ∈ g.keys then g
  else
    { keys := insert (item, kind) g.keys
      val := fun k =>
        if k = (item, kind) then
          if kind = "game" then ⟨(item, kind), kind, price, rating_score, platform, ∅⟩
          else ⟨(item, kind), kind, 0, 0, [], ∅⟩
        else g.val k }

/-- Python `Graph.add_edge`: when both keys are present, inserts each vertex
into the neighbour set of the other and the Boolean flag is true; otherwise it
raises ValueError before touching any state, modelled by returning the graph
unchanged with flag false. -/
def Graph.add_edge (g : Graph) (item1 item2 : String) (item1_kind item2_kind : String) :
    Graph × Bool :=
  if ((item1, item1_kind) ∈ g.keys ∧ (item2, item2_kind) ∈ g.keys) then
    ({ keys := g.keys
       val := fun k =>
         if k = (item1, item1_kind) then
           { g.val (item1, item1_kind) with
             neighbours := insert (item2, item2_kind) (g.val (item1, item1_kind)).neighbours }
         else if k = (item2, item2_kind) then
           { g.val (item2, item2_kind) with
             neighbours := insert (item1, item1_kind) (g.val (item2, item2_kind)).neighbours }
         else g.val k }, true)
  else (g, false)

/-- Python `Graph.adjacent`: false when either key is absent, otherwise true
exactly when some neighbour object of the first vertex has the second key as
its item. -/
def Graph.adjacent (g : Graph) (item1 item2 : String) (item1_kind item2_kind : String) : Bool :=
  if ((item1, item1_kind) ∈ g.keys ∧ (item2, item2_kind) ∈ g.keys) then
    decide (∃ n ∈ (g.val (item1, item1_kind)).neighbours, (g.val n).item = (item2, item2_kind))
  else false

/-- Python truthiness of the optional numeric filter arguments of
`get_filtered_game_vertices`: None and 0 are falsy, every other value truthy. -/
def qTruthy : Option ℚ → Bool
  | none => false
  | some x => decide (x ≠ 0)

/-- Python truthiness of the optional platforms filter: None and the empty
list are falsy, a non-empty list truthy. -/
def listTruthy : Option (List String) → Bool
  | none => false
  | some l => decide (l ≠ [])

/-- Python `Graph.get_filtered_game_vertices`: keeps exactly the game vertices
not skipped by one of the three continue statements, each guarded by the
truthiness of its filter argument. Vertices are returned as their keys (the
Python set of vertex objects corresponds one-to-one to keys under `WF`). -/
def Graph.get_filtered_game_vertices (g : Graph) (max_price : Option ℚ)
    (platforms : Option (List String)) (min_rating_score : Option ℚ) : Finset Key :=
  g.keys.filter (fun k =>
    (g.val k).kind = "game" ∧
    ¬(qTruthy max_price = true ∧ max_price.getD 0 < (g.val k).price) ∧
    ¬(listTruthy platforms = true ∧
        ∀ p ∈ (g.val k).platform, p ∉ platforms.getD []) ∧
    ¬(qTruthy min_rating_score = true ∧ (g.val k).rating_score < min_rating_score.getD 0))

/-- Python `Graph.get_vertex`: the stored vertex, or None for the ValueError
raised on a missing key. -/
def Graph.get_vertex (g : Graph) (item : String) (item_kind : String) : Option Vertex :=
  if (item, item_kind) ∈ g.keys then some (g.val (item, item_kind)) else none

/-- Python `Graph.get_similarity_score`: delegates to
`_GameVertex.similarity_score` on the two stored vertices, or None for the
ValueError raised when either key is missing. -/
def Graph.get_similarity_score (g : Graph) (item1 item2 : String)
    (item1_kind item2_kind : String) (kinds : List String) : Option ℚ :=
  if ((item1, item1_kind) ∈ g.keys ∧ (item2, item2_kind) ∈ g.keys) then
    some ((g.val (item1, item1_kind)).similarity_score (g.val (item2, item2_kind)) kinds)
  else none

/-- Well-formedness of a graph, maintained by the Python code by construction:
every stored vertex records its own key as its item (hence its kind is the
second key component) and all its neighbours are stored keys. -/
def Graph.WF (g : Graph) : Prop :=
  ∀ k ∈ g.keys, (g.val k).item = k ∧ (g.val k).kind = k.2 ∧ (g.val k).neighbours ⊆ g.keys

instance (g : Graph) : Decidable g.WF := by
  unfold Graph.WF
  infer_instance

/-- Candidate (title, score) pairs of `Graph.recommend_games`: the filtered
game vertices minus the input game, each paired with its nonzero similarity
score to the input game. The inner call
`get_similarity_score(game[0], game1.item[0], "game", "game", kinds)` looks
the two vertices up again by key; under `WF` the item of a stored game vertex
is its key, so both lookups return the stored vertices used here and the
ValueError branch is unreachable. -/
def Graph.recommendPairs (g : Graph) (game : Key) (kinds : List String)
    (max_price : Option ℚ) (platforms : Option (List String))
    (min_rating_score : Option ℚ) : Finset (String × ℚ) :=
  ((g.get_filtered_game_vertices max_price platforms min_rating_score).erase (game.1, "game")
    |>.filter (fun k =>
        (g.val (game.1, "game")).similarity_score (g.val k) kinds ≠ 0)).image
    (fun k => (k.1, (g.val (game.1, "game")).similarity_score (g.val k) kinds))

/-- Body of Python `Graph.recommend_games` after the `get_vertex` precondition
check: the code buckets the nonzero-score candidates into the dictionary
`game_dict` keyed by score, then emits the score keys in descending sorted
order and, within one score, the titles in ascending sorted order. -/
def Graph.recommendGamesCore (g : Graph) (game : Key) (kinds : List String)
    (max_price : Option ℚ) (platforms : Option (List String))
    (min_rating_score : Option ℚ) : List (String × ℚ) :=
  (((((g.recommendPairs game kinds max_price platforms min_rating_score).image
        Prod.snd).sort (· ≤ ·)).reverse).map (fun s =>
    ((((g.recommendPairs game kinds max_price platforms min_rating_score).filter
        (fun p => p.2 = s)).image Prod.fst).sort (· ≤ ·)).map (fun t => (t, s)))).flatten

/-- Python `Graph.recommend_games`: None models the ValueError that
`get_vertex(game[0], "game")` raises when the input game is not stored. -/
def Graph.recommend_games (g : Graph) (game : Key) (kinds : List String)
    (max_price : Option ℚ) (platforms : Option (List String))
    (min_rating_score : Option ℚ) : Option (List (String × ℚ)) :=
  if (game.1, "game") ∈ g.keys then
    some (g.recommendGamesCore game kinds max_price platforms min_rating_score)
  else none

/-- Model of the membership test `game_tup[0] in input_game_list` on line 328
of `compute.py`: it compares a title string against the (name, kind) tuples of
the input list, and Python equality between a str and a tuple is always False,
so the test never succeeds. -/
def strEqPair (_t : String) (_p : String × String) : Bool :=
  false

/-- Accumulated (title, score) list of `Graph.recommend_multiple_games`: the
concatenation of the `recommend_games` results of all input games, restricted
to the pairs surviving the (vacuous) line-328 input-game test. -/
def Graph.rmgPairs (g : Graph) (input_game_list : List Key) (kinds : List String)
    (max_price : Option ℚ) (platforms : Option (List String))
    (min_rating_score : Option ℚ) : List (String × ℚ) :=
  ((input_game_list.map (fun game =>
      g.recommendGamesCore game kinds max_price platforms min_rating_score)).flatten).filter
    (fun tup => !(input_game_list.any (strEqPair tup.1)))

/-- First-occurrence deduplication: the key order of the Python dictionary
`game_dict`, which keeps the position of the first insertion of each title. -/
def firstDedup : List String → List String
  | [] => []
  | a :: l => a :: (firstDedup l).filter (fun b => decide (b ≠ a))

/-- Keys of the dictionary `game_dict` of `recommend_multiple_games`: the
distinct accumulated titles in first-appearance order. -/
def Graph.rmgKeys (g : Graph) (input_game_list : List Key) (kinds : List String)
    (max_price : Option ℚ) (platforms : Option (List String))
    (min_rating_score : Option ℚ) : List String :=
  firstDedup ((g.rmgPairs input_game_list kinds max_price platforms min_rating_score).map
    Prod.fst)

/-- Field counter of `game_dict` for one title: how many accumulated pairs
carry the title, one per input game that recommended it. -/
def Graph.rmgCounter (g : Graph) (input_game_list : List Key) (kinds : List String)
    (max_price : Option ℚ) (platforms : Option (List String))
    (min_rating_score : Option ℚ) (t : String) : ℕ :=
  ((g.rmgPairs input_game_list kinds max_price platforms min_rating_score).filter
    (fun p => decide (p.1 = t))).length

/-- Field similarity_score of `game_dict` for one title: the sum of the
similarity scores of all accumulated pairs carrying the title. -/
def Graph.rmgScoreSum (g : Graph) (input_game_list : List Key) (kinds : List String)
    (max_price : Option ℚ) (platforms : Option (List String))
    (min_rating_score : Option ℚ) (t : String) : ℚ :=
  (((g.rmgPairs input_game_list kinds max_price platforms min_rating_score).filter
    (fun p => decide (p.1 = t))).map Prod.snd).sum

/-- Order in which Python `sorted(..., key=lambda k: (counter, score), reverse=True)`
emits the titles: descending lexicographic comparison of the
(counter, score sum) pairs. -/
def Graph.rmgLe (g : Graph) (input_game_list : List Key) (kinds : List String)
    (max_price : Option ℚ) (platforms : Option (List String))
    (min_rating_score : Option ℚ) (t1 t2 : String) : Prop :=
  g.rmgCounter input_game_list kinds max_price platforms min_rating_score t2 <
      g.rmgCounter input_game_list kinds max_price platforms min_rating_score t1 ∨
    (g.rmgCounter input_game_list kinds max_price platforms min_rating_score t2 =
        g.rmgCounter input_game_list kinds max_price platforms min_rating_score t1 ∧
      g.rmgScoreSum input_game_list kinds max_price platforms min_rating_score t2 ≤
        g.rmgScoreSum input_game_list kinds max_price platforms min_rating_score t1)

instance (g : Graph) (input_game_list : List Key) (kinds : List String)
    (max_price : Option ℚ) (platforms : Option (List String))
    (min_rating_score : Option ℚ) :
    DecidableRel (g.rmgLe input_game_list kinds max_price platforms min_rating_score) := by
  unfold Graph.rmgLe
  infer_instance

instance (g : Graph) (input_game_list : List Key) (kinds : List String)
    (max_price : Option ℚ) (platforms : Option (List String))
    (min_rating_score : Option ℚ) :
    IsTotal String (g.rmgLe input_game_list kinds max_price platforms min_rating_score) := by
  constructor
  intro a b
  unfold Graph.rmgLe
  rcases lt_trichotomy
      (g.rmgCounter input_game_list kinds max_price platforms min_rating_score a)
      (g.rmgCounter input_game_list kinds max_price platforms min_rating_score b) with h | h | h
  · exact Or.inr (Or.inl h)
  · rcases le_total
        (g.rmgScoreSum input_game_list kinds max_price platforms min_rating_score b)
        (g.rmgScoreSum input_game_list kinds max_price platforms min_rating_score a) with
      hs | hs
    · exact Or.inl (Or.inr ⟨h.symm, hs⟩)
    · exact Or.inr (Or.inr ⟨h, hs⟩)
  · exact Or.inl (Or.inl h)

instance (g : Graph) (input_game_list : List Key) (kinds : List String)
    (max_price : Option ℚ) (platforms : Option (List String))
    (min_rating_score : Option ℚ) :
    IsTrans String (g.rmgLe input_game_list kinds max_price platforms min_rating_score) := by
  constructor
  intro a b c hab hbc
  unfold Graph.rmgLe at hab hbc ⊢
  rcases hab with h1 | ⟨h1, h1s⟩
  · rcases hbc with h2 | ⟨h2, _⟩
    · exact Or.inl (h2.trans h1)
    · exact Or.inl (lt_of_le_of_lt (le_of_eq h2) h1)
  · rcases hbc with h2 | ⟨h2, h2s⟩
    · exact Or.inl (lt_of_lt_of_le h2 (le_of_eq h1))
    · exact Or.inr ⟨h2.trans h1, h2s.trans h1s⟩

/-- Python `Graph.recommend_multiple_games`: accumulates the per-game
recommendations, aggregates them in `game_dict`, sorts the titles by
descending (counter, score sum) with Python sorted (a stable sort, modelled by
the stable `List.insertionSort`) and returns the first `limit` titles. None
models the ValueError raised inside `recommend_games` when an input game is
not stored. -/
def Graph.recommend_multiple_games (g : Graph) (input_game_list : List Key) (limit : ℕ)
    (kinds : List String) (max_price : Option ℚ) (platforms : Option (List String))
    (min_rating_score : Option ℚ) : Option (List String) :=
  if ∀ game ∈ input_game_list, (game.1, "game") ∈ g.keys then
    some ((List.insertionSort
        (g.rmgLe input_game_list kinds max_price platforms min_rating_score)
        (g.rmgKeys input_game_list kinds max_price platforms min_rating_score)).take limit)
  else none

/-- Concrete graph used to instantiate the theorems at explicit inputs: games
Alpha and Beta both linked to the genre X, built with the graph operations the
same way `read.py` builds graphs from rows. -/
def demoGraph : Graph :=
  (((((Graph.emptyGraph.add_vertex "Alpha" "game" 5 80 ["windows"]).add_vertex
      "Beta" "game" 5 80 ["windows"]).add_vertex "X" "genre" 0 0 []).add_edge
      "Alpha" "X" "game" "genre").1.add_edge "Beta" "X" "game" "genre").1

lemma filteredNb_inter_neighbours (v w : Vertex) (K : List String) :
    v.filteredNb K ∩ w.neighbours = v.filteredNb K ∩ w.filteredNb K := by
  ext x
  simp only [Vertex.filteredNb, Finset.mem_inter, Finset.mem_filter]
  tauto

/-- Normal form of `similarity_score`: the code computes the Jaccard ratio of
the two filtered neighbour item sets, with the two degenerate 0.0 branches. -/
lemma similarity_score_eq (v w : Vertex) (K : List String) :
    v.similarity_score w K =
      if v.degree = 0 ∨ w.degree = 0 then 0
      else if v.filteredNb K ∪ w.filteredNb K = ∅ then 0
      else ((v.filteredNb K ∩ w.filteredNb K).card : ℚ) /
        ((v.filteredNb K ∪ w.filteredNb K).card : ℚ) := by
  by_cases h : v.degree = 0 ∨ w.degree = 0
  · simp [Vertex.similarity_score, h]
  · have hu : w.filteredNb K ∪ v.filteredNb K = v.filteredNb K ∪ w.filteredNb K :=
      Finset.union_comm _ _
    have hi := filteredNb_inter_neighbours v w K
    simp only [Vertex.similarity_score, h, if_false, hu, hi, Finset.card_eq_zero]

/-- C1: for game vertices g1, g2 and kind set K, `similarity_score` returns
the Jaccard ratio of A = filtered neighbour items of g1 and B = filtered
neighbour items of g2, returning 0.0 when either vertex has no neighbours at
all (regardless of K) and when the filtered union is empty; being a pure
function of its arguments, it mutates nothing. -/
theorem similarity_score_spec (v w : Vertex) (K : List String) :
    v.similarity_score w K =
      if v.degree = 0 ∨ w.degree = 0 then 0
      else if v.filteredNb K ∪ w.filteredNb K = ∅ then 0
      else ((v.filteredNb K ∩ w.filteredNb K).card : ℚ) /
        ((v.filteredNb K ∪ w.filteredNb K).card : ℚ) :=
  similarity_score_eq v w K

/-- C5: `similarity_score` is symmetric in its two game vertices for every
kind set K. -/
theorem similarity_score_symm (v w : Vertex) (K : List String) :
    v.similarity_score w K = w.similarity_score v K := by
  rw [similarity_score_eq v w K, similarity_score_eq w v K]
  by_cases h : v.degree = 0 ∨ w.degree = 0
  · have h2 : w.degree = 0 ∨ v.degree = 0 := h.symm
    simp [h, h2]
  · have h2 : ¬(w.degree = 0 ∨ v.degree = 0) := fun hc => h hc.symm
    rw [if_neg h, if_neg h2, Finset.union_comm (w.filteredNb K) (v.filteredNb K),
      Finset.inter_comm (w.filteredNb K) (v.filteredNb K)]

lemma degree_ne_zero_of_filteredNb_ne_empty {v : Vertex} {K : List String}
    (h : v.filteredNb K ≠ ∅) : v.degree ≠ 0 := by
  obtain ⟨x, hx⟩ := Finset.nonempty_iff_ne_empty.mpr h
  have hxv : x ∈ v.neighbours := (Finset.mem_filter.mp hx).1
  have : 0 < v.neighbours.card := Finset.card_pos.mpr ⟨x, hxv⟩
  exact Nat.pos_iff_ne_zero.mp this

lemma filteredNb_eq_empty_of_degree_zero {v : Vertex} {K : List String}
    (h : v.degree = 0) : v.filteredNb K = ∅ := by
  have : v.neighbours = ∅ := Finset.card_eq_zero.mp h
  simp [Vertex.filteredNb, this]

/-- C6: `similarity_score` lies in [0, 1]; it is 0 whenever either filtered
neighbour set is empty and whenever the filtered union is empty; and it is 1
exactly when the two filtered neighbour item sets are identical and
non-empty. -/
theorem similarity_score_range (v w : Vertex) (K : List String) :
    0 ≤ v.similarity_score w K ∧
    v.similarity_score w K ≤ 1 ∧
    ((v.filteredNb K = ∅ ∨ w.filteredNb K = ∅) → v.similarity_score w K = 0) ∧
    (v.filteredNb K ∪ w.filteredNb K = ∅ → v.similarity_score w K = 0) ∧
    (v.similarity_score w K = 1 ↔
      (v.filteredNb K = w.filteredNb K ∧ v.filteredNb K ≠ ∅)) := by
  rw [similarity_score_eq v w K]
  by_cases hd : v.degree = 0 ∨ w.degree = 0
  · refine ⟨by simp [hd], by simp [hd], by simp [hd], by simp [hd], ?_⟩
    rw [if_pos hd]
    constructor
    · intro h01
      exact absurd h01 (by norm_num)
    · rintro ⟨hab, hne⟩
      rcases hd with h | h
      · exact absurd (filteredNb_eq_empty_of_degree_zero h) hne
      · have hB := filteredNb_eq_empty_of_degree_zero (v := w) (K := K) h
        exact absurd (hab.trans hB) hne
  · rw [if_neg hd]
    by_cases hu : v.filteredNb K ∪ w.filteredNb K = ∅
    · refine ⟨by simp [hu], by simp [hu], by simp [hu], by simp [hu], ?_⟩
      rw [if_pos hu]
      have hA : v.filteredNb K = ∅ := (Finset.union_eq_empty.mp hu).1
      constructor
      · intro h01
        exact absurd h01 (by norm_num)
      · rintro ⟨_, hne⟩
        exact absurd hA hne
    · rw [if_neg hu]
      have hcardpos : 0 < ((v.filteredNb K ∪ w.filteredNb K).card : ℚ) := by
        have : 0 < (v.filteredNb K ∪ w.filteredNb K).card :=
          Finset.card_pos.mpr (Finset.nonempty_iff_ne_empty.mpr hu)
        exact_mod_cast this
      have hsub : v.filteredNb K ∩ w.filteredNb K ⊆ v.filteredNb K ∪ w.filteredNb K :=
        Finset.inter_subset_left.trans Finset.subset_union_left
      refine ⟨?_, ?_, ?_, fun h => absurd h hu, ?_⟩
      · exact div_nonneg (Nat.cast_nonneg _) (Nat.cast_nonneg _)
      · rw [div_le_one hcardpos]
        exact_mod_cast Finset.card_le_card hsub
      · rintro (hA | hB)
        · rw [hA, Finset.empty_inter]
          simp
        · rw [hB, Finset.inter_empty]
          simp
      · constructor
        · intro h1
          have hne : ((v.filteredNb K ∪ w.filteredNb K).card : ℚ) ≠ 0 := ne_of_gt hcardpos
          have hcards : ((v.filteredNb K ∩ w.filteredNb K).card : ℚ) =
              ((v.filteredNb K ∪ w.filteredNb K).card : ℚ) :=
            (div_eq_one_iff_eq hne).mp h1
          have hcardsn : (v.filteredNb K ∩ w.filteredNb K).card =
              (v.filteredNb K ∪ w.filteredNb K).card := by exact_mod_cast hcards
          have hiu : v.filteredNb K ∩ w.filteredNb K = v.filteredNb K ∪ w.filteredNb K :=
            Finset.eq_of_subset_of_card_le hsub (le_of_eq hcardsn.symm)
          have hAB : v.filteredNb K = w.filteredNb K := by
            apply Finset.Subset.antisymm
            · intro x hx
              have hx2 : x ∈ v.filteredNb K ∩ w.filteredNb K := by
                rw [hiu]
                exact Finset.mem_union_left _ hx
              exact (Finset.mem_inter.mp hx2).2
            · intro x hx
              have hx2 : x ∈ v.filteredNb K ∩ w.filteredNb K := by
                rw [hiu]
                exact Finset.mem_union_right _ hx
              exact (Finset.mem_inter.mp hx2).1
          refine ⟨hAB, fun hA => ?_⟩
          rw [hA, ← hAB, hA, Finset.union_empty] at hu
          exact hu rfl
        · rintro ⟨hab, hne⟩
          rw [← hab, Finset.inter_self, Finset.union_self]
          have : ((v.filteredNb K).card : ℚ) ≠ 0 := by
            have : (v.filteredNb K).card ≠ 0 :=
              fun hc => hne (Finset.card_eq_zero.mp hc)
            exact_mod_cast this
          exact div_self this

/-- Explicit shape of a successful `add_edge` call. -/
lemma add_edge_pos (g : Graph) (i1 i2 k1 k2 : String)
    (he : (i1, k1) ∈ g.keys ∧ (i2, k2) ∈ g.keys) :
    g.add_edge i1 i2 k1 k2 =
      ({ keys := g.keys
         val := fun k =>
           if k = (i1, k1) then
             { g.val (i1, k1) with
               neighbours := insert (i2, k2) (g.val (i1, k1)).neighbours }
           else if k = (i2, k2) then
             { g.val (i2, k2) with
               neighbours := insert (i1, k1) (g.val (i2, k2)).neighbours }
           else g.val k }, true) := by
  rw [Graph.add_edge, if_pos he]

/-- C10: when `add_edge` fails because an endpoint key is absent, the Python
code raises before performing any mutation, so the graph is left completely
unchanged and the failure flag is reported. -/
theorem add_edge_error_leaves_graph_unchanged (g : Graph) (i1 i2 k1 k2 : String)
    (h : ¬((i1, k1) ∈ g.keys ∧ (i2, k2) ∈ g.keys)) :
    g.add_edge i1 i2 k1 k2 = (g, false) := by
  rw [Graph.add_edge, if_neg h]

/-- Witness for C10 at a concrete input: the demo graph has no vertex with
key (Zed, tag), so adding an edge towards it fails and changes nothing. -/
theorem add_edge_error_leaves_graph_unchanged_witness :
    demoGraph.add_edge "Alpha" "Zed" "game" "tag" = (demoGraph, false) :=
  add_edge_error_leaves_graph_unchanged demoGraph "Alpha" "Zed" "game" "tag" (by decide)

/-- C7: `add_edge` fails exactly when an endpoint key is absent; when both
keys are present it makes the two vertices mutual neighbours, so both
directions of `adjacent` hold afterwards. -/
theorem add_edge_spec (g : Graph) (i1 i2 k1 k2 : String)
    (hw : g.WF) (hne : i1 ≠ i2) :
    ((g.add_edge i1 i2 k1 k2).2 = false ↔ ¬((i1, k1) ∈ g.keys ∧ (i2, k2) ∈ g.keys)) ∧
    ((i1, k1) ∈ g.keys → (i2, k2) ∈ g.keys →
      (g.add_edge i1 i2 k1 k2).1.adjacent i1 i2 k1 k2 = true ∧
      (g.add_edge i1 i2 k1 k2).1.adjacent i2 i1 k2 k1 = true) := by
  by_cases h : (i1, k1) ∈ g.keys ∧ (i2, k2) ∈ g.keys
  · have hk21 : ((i2, k2) : Key) ≠ (i1, k1) := by
      intro hc
      exact hne (congrArg Prod.fst hc).symm
    have hk12 : ((i1, k1) : Key) ≠ (i2, k2) := fun hc => hk21 hc.symm
    rw [add_edge_pos g i1 i2 k1 k2 h]
    refine ⟨by simp [h], fun h1 h2 => ⟨?_, ?_⟩⟩
    · rw [Graph.adjacent, if_pos (show _ ∧ _ from h)]
      simp only [decide_eq_true_eq]
      refine ⟨(i2, k2), ?_, ?_⟩
      · simp
      · simp [hk21, (hw (i2, k2) h2).1]
    · rw [Graph.adjacent, if_pos (show _ ∧ _ from ⟨h2, h1⟩)]
      simp only [decide_eq_true_eq]
      refine ⟨(i1, k1), ?_, ?_⟩
      · simp [hk21]
      · simp [(hw (i1, k1) h1).1]
  · rw [Graph.add_edge, if_neg h]
    exact ⟨by simp [h], fun h1 h2 => absurd ⟨h1, h2⟩ h⟩

/-- Witness for C7 at a concrete input: both endpoints of the Alpha to X edge
exist in the demo graph, so the edge insertion succeeds and adjacency holds in
both directions. -/
theorem add_edge_spec_witness :
    ((demoGraph.add_edge "Alpha" "X" "game" "genre").2 = false ↔
      ¬(("Alpha", "game") ∈ demoGraph.keys ∧ ("X", "genre") ∈ demoGraph.keys)) ∧
    (("Alpha", "game") ∈ demoGraph.keys → ("X", "genre") ∈ demoGraph.keys →
      (demoGraph.add_edge "Alpha" "X" "game" "genre").1.adjacent
        "Alpha" "X" "game" "genre" = true ∧
      (demoGraph.add_edge "Alpha" "X" "game" "genre").1.adjacent
        "X" "Alpha" "genre" "game" = true) :=
  add_edge_spec demoGraph "Alpha" "X" "game" "genre" (by decide) (by decide)

/-- C8: re-adding a vertex whose key already exists returns the graph
literally unchanged, and re-adding an existing edge returns the graph state of
the first insertion unchanged (set insertion is idempotent), so both
operations are idempotent and in particular preserve vertex and edge counts. -/
theorem add_vertex_add_edge_idempotent (g : Graph) (item kind : String)
    (price rating_score : ℚ) (platform : List String) (i1 i2 k1 k2 : String)
    (hv : (item, kind) ∈ g.keys)
    (he : (i1, k1) ∈ g.keys ∧ (i2, k2) ∈ g.keys) :
    g.add_vertex item kind price rating_score platform = g ∧
    (g.add_edge i1 i2 k1 k2).1.add_edge i1 i2 k1 k2 = ((g.add_edge i1 i2 k1 k2).1, true) := by
  constructor
  · rw [Graph.add_vertex, if_pos hv]
  · rw [add_edge_pos g i1 i2 k1 k2 he]
    dsimp only
    rw [add_edge_pos _ i1 i2 k1 k2 (by exact he)]
    refine congrArg (fun G => (G, true)) ?_
    refine congrArg (Graph.mk g.keys) (funext fun k => ?_)
    by_cases ha : k = (i1, k1)
    · subst ha
      simp [Finset.insert_idem]
    · by_cases hb : k = (i2, k2)
      · subst hb
        by_cases hc : ((i2, k2) : Key) = (i1, k1)
        · simp [hc, Finset.insert_idem]
        · simp [hc, Finset.insert_idem]
      · simp [ha, hb]

/-- Witness for C8 at a concrete input: re-adding the Alpha game vertex and
the Alpha to X edge of the demo graph changes nothing. -/
theorem add_vertex_add_edge_idempotent_witness :
    demoGraph.add_vertex "Alpha" "game" 5 80 ["windows"] = demoGraph ∧
    (demoGraph.add_edge "Alpha" "X" "game" "genre").1.add_edge "Alpha" "X" "game" "genre" =
      ((demoGraph.add_edge "Alpha" "X" "game" "genre").1, true) :=
  add_vertex_add_edge_idempotent demoGraph "Alpha" "game" 5 80 ["windows"]
    "Alpha" "X" "game" "genre" (by decide) (by decide)

/-- C9: `get_filtered_game_vertices` returns exactly the stored game vertices
whose price is at most the max price when that filter is given and nonzero,
that have at least one platform among the requested ones when that list is
given and non-empty, and whose rating is at least the minimum when that filter
is given and nonzero; an omitted filter or the falsy sentinel (0, empty list)
matches every game. -/
theorem get_filtered_game_vertices_spec (g : Graph) (mp : Option ℚ)
    (ps : Option (List String)) (mr : Option ℚ) (k : Key) :
    k ∈ g.get_filtered_game_vertices mp ps mr ↔
      (k ∈ g.keys ∧ (g.val k).kind = "game" ∧
        (∀ m ∈ mp, m ≠ 0 → (g.val k).price ≤ m) ∧
        (∀ l ∈ ps, l ≠ [] → ∃ p ∈ (g.val k).platform, p ∈ l) ∧
        (∀ m ∈ mr, m ≠ 0 → m ≤ (g.val k).rating_score)) := by
  rw [Graph.get_filtered_game_vertices, Finset.mem_filter]
  cases mp <;> cases ps <;> cases mr <;>
    simp [qTruthy, listTruthy, not_lt, not_forall, and_assoc]

lemma mem_recommendPairs {g : Graph} {game : Key} {kinds : List String}
    {mp : Option ℚ} {ps : Option (List String)} {mr : Option ℚ} {p : String × ℚ} :
    p ∈ g.recommendPairs game kinds mp ps mr ↔
      ∃ k ∈ g.get_filtered_game_vertices mp ps mr, k ≠ (game.1, "game") ∧
        (g.val (game.1, "game")).similarity_score (g.val k) kinds ≠ 0 ∧
        p = (k.1, (g.val (game.1, "game")).similarity_score (g.val k) kinds) := by
  constructor
  · intro hp
    obtain ⟨k, hk, hpk⟩ := Finset.mem_image.mp hp
    obtain ⟨hk1, hk2⟩ := Finset.mem_filter.mp hk
    obtain ⟨hk3, hk4⟩ := Finset.mem_erase.mp hk1
    exact ⟨k, hk4, hk3, hk2, hpk.symm⟩
  · rintro ⟨k, hk4, hk3, hk2, rfl⟩
    exact Finset.mem_image.mpr
      ⟨k, Finset.mem_filter.mpr ⟨Finset.mem_erase.mpr ⟨hk3, hk4⟩, hk2⟩, rfl⟩

lemma recommendPairs_char {g : Graph} {game : Key} {kinds : List String}
    {mp : Option ℚ} {ps : Option (List String)} {mr : Option ℚ} {p : String × ℚ}
    (hw : g.WF) (hp : p ∈ g.recommendPairs game kinds mp ps mr) :
    (p.1, "game") ∈ g.keys ∧ (g.val (p.1, "game")).kind = "game" ∧ p.1 ≠ game.1 ∧
      p.2 = (g.val (game.1, "game")).similarity_score (g.val (p.1, "game")) kinds ∧
      p.2 ≠ 0 := by
  obtain ⟨k, hkf, hkne, hs0, hpk⟩ := mem_recommendPairs.mp hp
  obtain ⟨hkmem, hkind⟩ := Finset.mem_filter.mp hkf
  have hkgame : (g.val k).kind = "game" := hkind.1
  have hk2 : k.2 = "game" := ((hw k hkmem).2.1).symm.trans hkgame
  have hkeq : k = (k.1, "game") := Prod.ext rfl hk2
  subst hpk
  refine ⟨?_, ?_, ?_, ?_, hs0⟩
  · dsimp only
    rw [← hkeq]
    exact hkmem
  · dsimp only
    rw [← hkeq]
    exact hkgame
  · dsimp only
    intro hc
    exact hkne (hkeq.trans (by rw [hc]))
  · dsimp only
    rw [← hkeq]

lemma mem_recommendGamesCore {g : Graph} {game : Key} {kinds : List String}
    {mp : Option ℚ} {ps : Option (List String)} {mr : Option ℚ} {x : String × ℚ} :
    x ∈ g.recommendGamesCore game kinds mp ps mr ↔
      x ∈ g.recommendPairs game kinds mp ps mr := by
  unfold Graph.recommendGamesCore
  rw [List.mem_flatten]
  constructor
  · rintro ⟨l, hl, hxl⟩
    obtain ⟨s, hs, rfl⟩ := List.mem_map.mp hl
    obtain ⟨t, ht, rfl⟩ := List.mem_map.mp hxl
    obtain ⟨q, hq, rfl⟩ := Finset.mem_image.mp ((Finset.mem_sort _).mp ht)
    obtain ⟨hq1, hq2⟩ := Finset.mem_filter.mp hq
    have hqx : (q.1, s) = q := by
      rw [← hq2]
    rw [hqx]
    exact hq1
  · intro hx
    refine ⟨((((g.recommendPairs game kinds mp ps mr).filter
        (fun p => p.2 = x.2)).image Prod.fst).sort (· ≤ ·)).map (fun t => (t, x.2)),
      ?_, ?_⟩
    · refine List.mem_map.mpr ⟨x.2, ?_, rfl⟩
      rw [List.mem_reverse, Finset.mem_sort]
      exact Finset.mem_image.mpr ⟨x, hx, rfl⟩
    · refine List.mem_map.mpr ⟨x.1, ?_, ?_⟩
      · rw [Finset.mem_sort]
        exact Finset.mem_image.mpr ⟨x, Finset.mem_filter.mpr ⟨hx, rfl⟩, rfl⟩
      · exact Prod.mk.eta

lemma recommendGamesCore_sorted (g : Graph) (game : Key) (kinds : List String)
    (mp : Option ℚ) (ps : Option (List String)) (mr : Option ℚ) :
    (g.recommendGamesCore game kinds mp ps mr).Pairwise
      (fun a b => b.2 < a.2 ∨ (a.2 = b.2 ∧ a.1 < b.1)) := by
  unfold Graph.recommendGamesCore
  rw [List.pairwise_flatten]
  constructor
  · intro l hl
    obtain ⟨s, hs, rfl⟩ := List.mem_map.mp hl
    rw [List.pairwise_map]
    exact (Finset.sort_sorted_lt _).imp (fun h => Or.inr ⟨rfl, h⟩)
  · rw [List.pairwise_map]
    have hrev : ((((g.recommendPairs game kinds mp ps mr).image
        Prod.snd).sort (· ≤ ·)).reverse).Pairwise (· > ·) := by
      rw [List.pairwise_reverse]
      exact Finset.sort_sorted_lt _
    refine hrev.imp ?_
    intro s1 s2 hgt x hx y hy
    obtain ⟨t1, _, rfl⟩ := List.mem_map.mp hx
    obtain ⟨t2, _, rfl⟩ := List.mem_map.mp hy
    exact Or.inl hgt

/-- C2: for a stored input game, the sequence returned by `recommend_games`
never mentions the input game title, never carries similarity score 0, has
pairwise distinct titles, mentions only stored game vertices, and is sorted by
strictly descending score with equal-score entries in strictly ascending title
order. -/
theorem recommend_games_spec (g : Graph) (game : Key) (kinds : List String)
    (mp : Option ℚ) (ps : Option (List String)) (mr : Option ℚ)
    (hw : g.WF) (hg : (game.1, "game") ∈ g.keys) :
    (∀ p ∈ (g.recommend_games game kinds mp ps mr).getD [], p.1 ≠ game.1) ∧
    (∀ p ∈ (g.recommend_games game kinds mp ps mr).getD [], p.2 ≠ 0) ∧
    ((((g.recommend_games game kinds mp ps mr).getD []).map Prod.fst).Nodup) ∧
    (∀ p ∈ (g.recommend_games game kinds mp ps mr).getD [],
      (p.1, "game") ∈ g.keys ∧ (g.val (p.1, "game")).kind = "game") ∧
    ((g.recommend_games game kinds mp ps mr).getD []).Pairwise
      (fun a b => b.2 < a.2 ∨ (a.2 = b.2 ∧ a.1 < b.1)) := by
  rw [Graph.recommend_games, if_pos hg]
  simp only [Option.getD_some]
  refine ⟨?_, ?_, ?_, ?_, recommendGamesCore_sorted g game kinds mp ps mr⟩
  · intro p hp
    exact (recommendPairs_char hw (mem_recommendGamesCore.mp hp)).2.2.1
  · intro p hp
    exact (recommendPairs_char hw (mem_recommendGamesCore.mp hp)).2.2.2.2
  · have h1 : (g.recommendGamesCore game kinds mp ps mr).Pairwise
        (fun a b => a.1 ≠ b.1) := by
      refine (recommendGamesCore_sorted g game kinds mp ps mr).imp_of_mem ?_
      intro a b ha hb hr hfst
      have hca := recommendPairs_char hw (mem_recommendGamesCore.mp ha)
      have hcb := recommendPairs_char hw (mem_recommendGamesCore.mp hb)
      have hsnd : a.2 = b.2 := by
        rw [hca.2.2.2.1, hcb.2.2.2.1, hfst]
      rcases hr with h | ⟨_, h⟩
      · rw [hsnd] at h
        exact lt_irrefl _ h
      · rw [hfst] at h
        exact lt_irrefl _ h
    exact h1.map _ (fun a b h => h)
  · intro p hp
    have hc := recommendPairs_char hw (mem_recommendGamesCore.mp hp)
    exact ⟨hc.1, hc.2.1⟩

/-- Witness for C2 at a concrete input: the demo graph is well formed and
contains the game Alpha, so the theorem applies to recommending games similar
to Alpha by genre with no filters. -/
theorem recommend_games_spec_witness :
    (∀ p ∈ (demoGraph.recommend_games ("Alpha", "game") ["genre"] none none none).getD [],
      p.1 ≠ "Alpha") ∧
    (∀ p ∈ (demoGraph.recommend_games ("Alpha", "game") ["genre"] none none none).getD [],
      p.2 ≠ 0) ∧
    ((((demoGraph.recommend_games ("Alpha", "game") ["genre"] none none none).getD []).map
      Prod.fst).Nodup) ∧
    (∀ p ∈ (demoGraph.recommend_games ("Alpha", "game") ["genre"] none none none).getD [],
      (p.1, "game") ∈ demoGraph.keys ∧ (demoGraph.val (p.1, "game")).kind = "game") ∧
    ((demoGraph.recommend_games ("Alpha", "game") ["genre"] none none none).getD []).Pairwise
      (fun a b => b.2 < a.2 ∨ (a.2 = b.2 ∧ a.1 < b.1)) :=
  recommend_games_spec demoGraph ("Alpha", "game") ["genre"] none none none
    (by decide) (by decide)

/-- C4: for stored input games and limit at least 1, `recommend_multiple_games`
returns at most `limit` titles, returns fewer exactly when fewer aggregated
titles qualify, and lists the titles sorted primarily by descending frequency
and secondarily by descending summed similarity score. -/
theorem recommend_multiple_games_spec (g : Graph) (input : List Key) (limit : ℕ)
    (kinds : List String) (mp : Option ℚ) (ps : Option (List String)) (mr : Option ℚ)
    (hin : ∀ game ∈ input, (game.1, "game") ∈ g.keys) (_hlim : 1 ≤ limit) :
    ((g.recommend_multiple_games input limit kinds mp ps mr).getD []).length ≤ limit ∧
    ((g.recommend_multiple_games input limit kinds mp ps mr).getD []).length =
      min limit (g.rmgKeys input kinds mp ps mr).length ∧
    ((g.recommend_multiple_games input limit kinds mp ps mr).getD []).Pairwise
      (fun t1 t2 =>
        g.rmgCounter input kinds mp ps mr t2 < g.rmgCounter input kinds mp ps mr t1 ∨
        (g.rmgCounter input kinds mp ps mr t2 = g.rmgCounter input kinds mp ps mr t1 ∧
          g.rmgScoreSum input kinds mp ps mr t2 ≤ g.rmgScoreSum input kinds mp ps mr t1)) := by
  rw [Graph.recommend_multiple_games, if_pos hin]
  simp only [Option.getD_some]
  have hlen : (List.insertionSort (g.rmgLe input kinds mp ps mr)
      (g.rmgKeys input kinds mp ps mr)).length = (g.rmgKeys input kinds mp ps mr).length :=
    (List.perm_insertionSort _ _).length_eq
  refine ⟨?_, ?_, ?_⟩
  · rw [List.length_take, hlen]
    exact min_le_left _ _
  · rw [List.length_take, hlen]
  · exact List.Pairwise.sublist (List.take_sublist _ _)
      (List.sorted_insertionSort (g.rmgLe input kinds mp ps mr) _)

/-- Witness for C4 at a concrete input: both input games are stored in the
demo graph and the limit 3 is at least 1, so the theorem applies. -/
theorem recommend_multiple_games_spec_witness :
    ((demoGraph.recommend_multiple_games [("Alpha", "game")] 3 ["genre"] none none
      none).getD []).length ≤ 3 ∧
    ((demoGraph.recommend_multiple_games [("Alpha", "game")] 3 ["genre"] none none
      none).getD []).length =
      min 3 (demoGraph.rmgKeys [("Alpha", "game")] ["genre"] none none none).length ∧
    ((demoGraph.recommend_multiple_games [("Alpha", "game")] 3 ["genre"] none none
      none).getD []).Pairwise
      (fun t1 t2 =>
        demoGraph.rmgCounter [("Alpha", "game")] ["genre"] none none none t2 <
            demoGraph.rmgCounter [("Alpha", "game")] ["genre"] none none none t1 ∨
        (demoGraph.rmgCounter [("Alpha", "game")] ["genre"] none none none t2 =
            demoGraph.rmgCounter [("Alpha", "game")] ["genre"] none none none t1 ∧
          demoGraph.rmgScoreSum [("Alpha", "game")] ["genre"] none none none t2 ≤
            demoGraph.rmgScoreSum [("Alpha", "game")] ["genre"] none none none t1)) :=
  recommend_multiple_games_spec demoGraph [("Alpha", "game")] 3 ["genre"] none none none
    (by decide) (by decide)

lemma mem_firstDedup (x : String) : ∀ (l : List String), (x ∈ firstDedup l ↔ x ∈ l)
  | [] => by simp [firstDedup]
  | a :: l => by
    by_cases hxa : x = a
    · simp [firstDedup, hxa]
    · simp only [firstDedup, List.mem_cons, List.mem_filter, mem_firstDedup x l, hxa,
        false_or, decide_eq_true_eq]
      constructor
      · rintro ⟨h, _⟩
        exact h
      · intro h
        exact ⟨h, hxa⟩

lemma demo_score_AB :
    (demoGraph.val ("Alpha", "game")).similarity_score
      (demoGraph.val ("Beta", "game")) ["genre"] = 1 := by
  rw [similarity_score_eq]
  have h1 : (demoGraph.val ("Alpha", "game")).degree = 1 := by decide
  have h2 : (demoGraph.val ("Beta", "game")).degree = 1 := by decide
  have h3 : (demoGraph.val ("Alpha", "game")).filteredNb ["genre"] =
      ({("X", "genre")} : Finset Key) := by decide
  have h4 : (demoGraph.val ("Beta", "game")).filteredNb ["genre"] =
      ({("X", "genre")} : Finset Key) := by decide
  rw [h1, h2, h3, h4]
  simp

lemma demo_score_BA :
    (demoGraph.val ("Beta", "game")).similarity_score
      (demoGraph.val ("Alpha", "game")) ["genre"] = 1 := by
  rw [similarity_score_eq]
  have h1 : (demoGraph.val ("Beta", "game")).degree = 1 := by decide
  have h2 : (demoGraph.val ("Alpha", "game")).degree = 1 := by decide
  have h3 : (demoGraph.val ("Beta", "game")).filteredNb ["genre"] =
      ({("X", "genre")} : Finset Key) := by decide
  have h4 : (demoGraph.val ("Alpha", "game")).filteredNb ["genre"] =
      ({("X", "genre")} : Finset Key) := by decide
  rw [h1, h2, h3, h4]
  simp

lemma demo_pairs_Alpha :
    demoGraph.recommendPairs ("Alpha", "game") ["genre"] none none none =
      ({("Beta", 1)} : Finset (String × ℚ)) := by
  rw [Graph.recommendPairs]
  have h1 : (demoGraph.get_filtered_game_vertices none none none).erase ("Alpha", "game") =
      ({("Beta", "game")} : Finset Key) := by decide
  dsimp only
  rw [h1, Finset.filter_singleton, if_pos (by rw [demo_score_AB]; norm_num),
    Finset.image_singleton]
  rw [show ((("Beta", "game") : Key).1,
      (demoGraph.val ("Alpha", "game")).similarity_score
        (demoGraph.val ("Beta", "game")) ["genre"]) =
      ("Beta", (demoGraph.val ("Alpha", "game")).similarity_score
        (demoGraph.val ("Beta", "game")) ["genre"]) from rfl]
  rw [demo_score_AB]

lemma demo_pairs_Beta :
    demoGraph.recommendPairs ("Beta", "game") ["genre"] none none none =
      ({("Alpha", 1)} : Finset (String × ℚ)) := by
  rw [Graph.recommendPairs]
  have h1 : (demoGraph.get_filtered_game_vertices none none none).erase ("Beta", "game") =
      ({("Alpha", "game")} : Finset Key) := by decide
  dsimp only
  rw [h1, Finset.filter_singleton, if_pos (by rw [demo_score_BA]; norm_num),
    Finset.image_singleton]
  rw [show ((("Alpha", "game") : Key).1,
      (demoGraph.val ("Beta", "game")).similarity_score
        (demoGraph.val ("Alpha", "game")) ["genre"]) =
      ("Alpha", (demoGraph.val ("Beta", "game")).similarity_score
        (demoGraph.val ("Alpha", "game")) ["genre"]) from rfl]
  rw [demo_score_BA]

lemma demo_core_Alpha :
    demoGraph.recommendGamesCore ("Alpha", "game") ["genre"] none none none =
      [("Beta", 1)] := by
  rw [Graph.recommendGamesCore, demo_pairs_Alpha]
  simp [Finset.filter_singleton, Finset.sort_singleton, Finset.image_singleton]

lemma demo_core_Beta :
    demoGraph.recommendGamesCore ("Beta", "game") ["genre"] none none none =
      [("Alpha", 1)] := by
  rw [Graph.recommendGamesCore, demo_pairs_Beta]
  simp [Finset.filter_singleton, Finset.sort_singleton, Finset.image_singleton]

lemma demo_rmgPairs :
    demoGraph.rmgPairs [("Alpha", "game"), ("Beta", "game")] ["genre"] none none none =
      [("Beta", 1), ("Alpha", 1)] := by
  rw [Graph.rmgPairs, List.map_cons, List.map_cons, List.map_nil,
    demo_core_Alpha, demo_core_Beta]
  simp [strEqPair]

/-- C3 counterexample: with the demo graph and input games Alpha and Beta (the
two games are similar through the shared genre X, so each recommends the
other), `recommend_multiple_games` returns a list containing the title Alpha,
which is itself one of the input games. The intended exclusion on line 328 of
`compute.py` compares a title string against (name, kind) tuples and therefore
never fires. -/
theorem recommend_multiple_games_includes_input_game :
    "Alpha" ∈ (demoGraph.recommend_multiple_games
      [("Alpha", "game"), ("Beta", "game")] 10 ["genre"] none none none).getD [] := by
  rw [Graph.recommend_multiple_games, if_pos (by decide)]
  simp only [Option.getD_some]
  have hkeys : demoGraph.rmgKeys [("Alpha", "game"), ("Beta", "game")] ["genre"]
      none none none = ["Beta", "Alpha"] := by
    rw [Graph.rmgKeys, demo_rmgPairs]
    rfl
  rw [hkeys]
  have hlen : (List.insertionSort
      (demoGraph.rmgLe [("Alpha", "game"), ("Beta", "game")] ["genre"] none none none)
      ["Beta", "Alpha"]).length = 2 :=
    (List.perm_insertionSort _ _).length_eq
  rw [List.take_of_length_le (by rw [hlen]; norm_num)]
  rw [List.mem_insertionSort]
  simp

end Steam
